import Mathlib

/-!
Verification of the reasoning-trace distillation and validation pipeline of the
tutorial notebook tutorials/llm/distill_deepseek_r1/generate_reasoning_data.ipynb.

Python strings are embedded as lists of characters (`Str`); Python dicts
(the dataset records) as association lists from keys to values; the token
stream returned by the completion endpoint as a list of events (a chunk with
an optional content delta, or a transport error raised during iteration).
-/

namespace DistillR1

/-- A Python string, embedded as a list of characters. -/
abbrev Str := List Char

/-- Coerce a Lean string literal into the embedding type. -/
def STR (s : String) : Str := s.toList

/-- The literal opening tag `<think>`. -/
def thinkOpen : Str := STR "<think>"

/-- The literal closing tag `</think>`. -/
def thinkClose : Str := STR "</think>"

/-- Auxiliary scanner for `pyCount`.  `skip` counts characters still to be
skipped after a match was consumed (Python counts non-overlapping
occurrences, resuming the scan after the end of each match). -/
def pyCountAux (pat : Str) : Nat → Str → Nat
  | _, [] => 0
  | Nat.succ k, _ :: rest => pyCountAux pat k rest
  | 0, c :: rest =>
    if pat.isPrefixOf (c :: rest) then 1 + pyCountAux pat (pat.length - 1) rest
    else pyCountAux pat 0 rest

/-- Embedding of Python `s.count(pat)`: the number of non-overlapping
occurrences of `pat` in `s`, scanning left to right. -/
def pyCount (pat s : Str) : Nat := pyCountAux pat 0 s

/-- Does `pat` occur as a contiguous substring of `s`?  (Executable search:
at each position, test whether `pat` is a prefix of the remaining list.) -/
def hasSubstr (pat : Str) : Str → Bool
  | [] => pat.isEmpty
  | c :: rest => pat.isPrefixOf (c :: rest) || hasSubstr pat rest

/-- Embedding of `re.match(r"^<think>.*?</think>", t, re.DOTALL | re.MULTILINE)`
viewed as a Boolean test ("did a match succeed").  `re.match` anchors the
match at position 0, so the pattern succeeds exactly when `t` starts with the
literal `<think>` and the literal `</think>` occurs somewhere at or after
position 7 (with DOTALL, `.*?` matches any characters including newlines;
MULTILINE only affects where `^`/`$` may match and is vacuous for a match
anchored at position 0). -/
def regexMatches (t : Str) : Bool :=
  thinkOpen.isPrefixOf t && hasSubstr thinkClose (t.drop thinkOpen.length)

/-- Embedding of the notebook's `check_format`:

    def check_format(reasoning_trace):
        pattern = r"^<think>.*?</think>"
        if not re.match(pattern, reasoning_trace, re.DOTALL | re.MULTILINE):
            return False
        # check if all tags only appear once
        tags = ["<think>", "</think>"]
        for tag in tags:
            if reasoning_trace.count(tag) != 1:
                return False
        return True
-/
def check_format (reasoning_trace : Str) : Bool :=
  if !regexMatches reasoning_trace then false
  else [thinkOpen, thinkClose].all (fun tag => pyCount tag reasoning_trace == 1)

/-! ### The streaming accumulator -/

/-- One event observed while iterating the completion stream: either a chunk
arrives, carrying `chunk.choices[0].delta.content` (which may be `None`,
embedded as `Option.none`), or the transport raises an exception
(`err`) — the `for` loop in the source can fail at any iteration step. -/
inductive StreamEvent
  | chunk (content : Option Str)
  | err
  deriving DecidableEq

/-- The accumulating loop of `process_streaming_response`, carrying the
already accumulated `reasoning_trace`.  A transport error ends the loop and
the accumulated prefix is returned (the `except` branch of the source). -/
def processFrom (reasoning_trace : Str) : List StreamEvent → Str
  | [] => reasoning_trace
  | StreamEvent.err :: _ => reasoning_trace
  | StreamEvent.chunk none :: rest => processFrom reasoning_trace rest
  | StreamEvent.chunk (some s) :: rest => processFrom (reasoning_trace ++ s) rest

/-- Embedding of the notebook's `process_streaming_response`:

    def process_streaming_response(completion):
        reasoning_trace = ""
        try:
            for chunk in completion:
                if chunk.choices[0].delta.content is not None:
                    reasoning_trace += chunk.choices[0].delta.content
            return reasoning_trace
        except Exception as e:
            print(f"Error occurred: {e}")
            return reasoning_trace
-/
def process_streaming_response (completion : List StreamEvent) : Str :=
  processFrom [] completion

/-- The text fragments delivered by the stream before the first transport
error (all of them when no error occurs), skipping absent (`None`) deltas. -/
def deliveredFragments : List StreamEvent → List Str
  | [] => []
  | StreamEvent.err :: _ => []
  | StreamEvent.chunk none :: rest => deliveredFragments rest
  | StreamEvent.chunk (some s) :: rest => s :: deliveredFragments rest

/-! ### Dataset records (Python dicts) -/

/-- A value stored in a dataset record: a string or a Boolean. -/
inductive Val
  | vstr (s : Str)
  | vbool (b : Bool)
  deriving DecidableEq

/-- A dataset record, embedded as an association list from keys to values
(Python dict semantics: `getField` returns the value at the first matching
key; well-formed records have no duplicate keys). -/
abbrev Record := List (Str × Val)

/-- Dict lookup `r[k]`, `none` when the key is absent. -/
def getField (r : Record) (k : Str) : Option Val :=
  match r with
  | [] => none
  | (k2, v) :: rest => if k2 = k then some v else getField rest k

/-- Embedding of the Python dict merge `{**r, k: v}`: the value at `k`
becomes `v` (replacing the stored value if `k` is present, appended at the
end otherwise); every other key keeps its value. -/
def setField (r : Record) (k : Str) (v : Val) : Record :=
  match r with
  | [] => [(k, v)]
  | (k2, w) :: rest => if k2 = k then (k, v) :: rest else (k2, w) :: setField rest k v

/-- Extract the string stored at a lookup result, `none` if the key is
absent or holds a non-string. -/
def asStr : Option Val → Option Str
  | some (Val.vstr s) => some s
  | _ => none

/-! ### The answer-correctness check

`calculate_answer` in the notebook delegates parsing and equivalence
checking to the external `math_verify` library (`parse`/`verify`), which is
not part of this repository.  The two collaborators are therefore modelled
from the spec; the notebook's configuration (`boxed_match_priority=0`,
`try_extract_without_anchor=False`) makes boxed content the extraction
anchor. -/

/-- The boxed-answer opening delimiter, the LaTeX literal before the content. -/
def boxedMarker : Str := STR "\\boxed\x7b"

/-- Characters of the boxed content up to the closing brace; `none` when the
brace is never closed. -/
def takeUntilClose : Str → Option Str
  | [] => none
  | c :: rest =>
    if c = '\x7d' then some []
    else (takeUntilClose rest).map (fun s => c :: s)

/-- Modelled from the spec: the answer-extraction collaborator
(`math_verify.parse` with a boxed-first `LatexExtractionConfig`), which is
missing from `src/`.  It extracts "content inside a boxed-answer delimiter
as the primary extraction target": the content of the first
`\boxed{...}` group in the trace, `none` when no parseable boxed
expression is found. -/
def extractAnswer : Str → Option Str
  | [] => none
  | c :: rest =>
    if boxedMarker.isPrefixOf (c :: rest) then
      takeUntilClose (List.drop (boxedMarker.length - 1) rest)
    else extractAnswer rest

/-- Numeric value of a decimal digit, `none` for any other character. -/
def digitVal (c : Char) : Option Nat :=
  if '0' ≤ c ∧ c ≤ '9' then some (c.toNat - '0'.toNat) else none

/-- Reads a digit string left to right into a natural number accumulator;
`none` on any non-digit. -/
def parseDigits (acc : Nat) : Str → Option Nat
  | [] => some acc
  | c :: rest =>
    match digitVal c with
    | some d => parseDigits (10 * acc + d) rest
    | none => none

/-- Modelled from the spec: the numeric normalization inside the
equivalence-verification collaborator (`math_verify`), which is missing from
`src/`.  A decimal literal (digits, optionally followed by a decimal point
and further digits) denotes the rational number `numerator / 10 ^ places`,
returned as the pair `(numerator, places)`, so that "different but
equivalent forms" such as `9.8` and `9.80` get the same value. -/
def parseDecimal (s : Str) : Option (Nat × Nat) :=
  let intPart := s.takeWhile (fun c => c ≠ '.')
  match s.dropWhile (fun c => c ≠ '.') with
  | [] => (parseDigits 0 intPart).map (fun n => (n, 0))
  | _ :: fracPart =>
    match parseDigits 0 intPart, parseDigits 0 fracPart with
    | some n, some f => some (n * 10 ^ fracPart.length + f, fracPart.length)
    | _, _ => none

/-- Modelled from the spec: the equivalence-verification collaborator
(`math_verify.verify`), which is missing from `src/`.  Two answers are
equivalent when both denote the same rational value under numeric
normalization (`a / 10 ^ p = b / 10 ^ q` iff `a * 10 ^ q = b * 10 ^ p`);
an unparseable side verifies as `false`. -/
def verifyEquiv (extracted ground_truth : Str) : Bool :=
  match parseDecimal extracted, parseDecimal ground_truth with
  | some a, some b => decide (a.1 * 10 ^ b.2 = b.1 * 10 ^ a.2)
  | _, _ => false

/-- Embedding of the notebook's `calculate_answer` (its `parse`/`verify`
collaborators modelled from the spec as `extractAnswer`/`verifyEquiv`):

    def calculate_answer(reasoning_trace, ground_truth):
        answer_parsed = parse(reasoning_trace, extraction_config=[...boxed first...],
                              extraction_mode="first_match")
        return verify(answer_parsed, ground_truth)

When extraction finds no parseable expression, verification fails. -/
def calculate_answer (reasoning_trace ground_truth : Str) : Bool :=
  match extractAnswer reasoning_trace with
  | none => false
  | some e => verifyEquiv e ground_truth

/-! ### The trace validator -/

/-- The record key `"problem"`. -/
def problemKey : Str := STR "problem"
/-- The record key `"answer"`. -/
def answerKey : Str := STR "answer"
/-- The record key `"reasoning_trace"`. -/
def traceKey : Str := STR "reasoning_trace"
/-- The record key `"filtered"`. -/
def filteredKey : Str := STR "filtered"
/-- The record key `"filtered_reason"`. -/
def reasonKey : Str := STR "filtered_reason"

/-- The reason code `"VALID"`. -/
def VALID : Str := STR "VALID"
/-- The reason code `"INVALID_FORMAT"`. -/
def INVALID_FORMAT : Str := STR "INVALID_FORMAT"
/-- The reason code `"INCORRECT_ANSWER"`. -/
def INCORRECT_ANSWER : Str := STR "INCORRECT_ANSWER"

/-- Attach the verdict fields to a record:
`{**ex, "filtered": b, "filtered_reason": reason}`. -/
def withVerdict (ex : Record) (b : Bool) (reason : Str) : Record :=
  setField (setField ex filteredKey (Val.vbool b)) reasonKey (Val.vstr reason)

/-- The validator, parametrized by the answer-correctness check it calls in
its second step (the source calls `calculate_answer` there).  `none` models a
`KeyError` on a record missing the `reasoning_trace` or `answer` string:

    def filter_reasoning_trace(example):
        reasoning_trace = example["reasoning_trace"]
        ground_truth = example["answer"]
        if not check_format(reasoning_trace):
            return {**example, "filtered": True, "filtered_reason": "INVALID_FORMAT"}
        if not calculate_answer(reasoning_trace, ground_truth):
            return {**example, "filtered": True, "filtered_reason": "INCORRECT_ANSWER"}
        return {**example, "filtered": False, "filtered_reason": "VALID"}
-/
def filterWith (answerCheck : Str → Str → Bool) (ex : Record) : Option Record :=
  match asStr (getField ex traceKey), asStr (getField ex answerKey) with
  | some reasoning_trace, some ground_truth =>
    if !check_format reasoning_trace then
      some (withVerdict ex true INVALID_FORMAT)
    else if !answerCheck reasoning_trace ground_truth then
      some (withVerdict ex true INCORRECT_ANSWER)
    else
      some (withVerdict ex false VALID)
  | _, _ => none

/-- Embedding of the notebook's `filter_reasoning_trace`: the validator with
its answer-correctness step instantiated to `calculate_answer`. -/
def filter_reasoning_trace (ex : Record) : Option Record :=
  filterWith calculate_answer ex

/-! ### The trace requester -/

/-- One chat message of the completion request. -/
structure Message where
  role : Str
  content : Str
  deriving DecidableEq

/-- The arguments passed to `client.chat.completions.create`.  The two
sampling parameters are numeric literals in the source; they are embedded
as exact rationals (no floating-point computation is performed on them —
they are configuration values passed through verbatim). -/
structure CompletionRequest where
  model : Str
  messages : List Message
  temperature : ℚ
  top_p : ℚ
  max_tokens : Nat
  timeout : Nat
  stream : Bool
  deriving DecidableEq

/-- Embedding of `PROMPT_TEMPLATE.format(problem=problem)` with

    PROMPT_TEMPLATE = "Please reason step by step, and put your final answer within \\boxed{{}}. {problem}"

(`{{`/`}}` denote literal braces in a Python format string, and
`{problem}` is replaced by the problem text). -/
def PROMPT_TEMPLATE (problem : Str) : Str :=
  STR "Please reason step by step, and put your final answer within \\boxed\x7b\x7d. " ++ problem

/-- The single completion request issued by `distill_data_from_r1` for a
given problem text. -/
def distillRequest (problem : Str) : CompletionRequest :=
  { model := STR "nvdev/deepseek-ai/deepseek-r1"
    messages := [{ role := STR "user", content := PROMPT_TEMPLATE problem }]
    temperature := 0.6
    top_p := 0.7
    max_tokens := 32768
    timeout := 10000
    stream := true }

/-- Embedding of the notebook's `distill_data_from_r1`, parametrized by the
external completion service `serve` (the remote endpoint behind
`client.chat.completions.create`, which returns the chunk stream).  The
first component of the result records the list of requests issued during
the call, in order:

    def distill_data_from_r1(example):
        problem = example["problem"]
        completion = client.chat.completions.create(
            model="nvdev/deepseek-ai/deepseek-r1",
            messages=[{"role": "user", "content": PROMPT_TEMPLATE.format(problem=problem)}],
            temperature=0.6, top_p=0.7, max_tokens=32768, timeout=10000, stream=True)
        reasoning_trace = process_streaming_response(completion)
        return {**example, "reasoning_trace": reasoning_trace}
-/
def distill_data_from_r1 (serve : CompletionRequest → List StreamEvent) (ex : Record) :
    Option (List CompletionRequest × Record) :=
  match asStr (getField ex problemKey) with
  | some problem =>
    let req := distillRequest problem
    let reasoning_trace := process_streaming_response (serve req)
    some ([req], setField ex traceKey (Val.vstr reasoning_trace))
  | none => none

/-! ### The dataset pipeline tail -/

/-- Embedding of `sample_dataset.map(filter_reasoning_trace, ...)`: the
validator applied to every record, in order (`none` when it fails on some
record). -/
def validateDataset : List Record → Option (List Record)
  | [] => some []
  | ex :: rest =>
    match filter_reasoning_trace ex, validateDataset rest with
    | some out, some outs => some (out :: outs)
    | _, _ => none

/-- Python truthiness of a stored value (`not x[...]` negates it). -/
def pyTruthy : Val → Bool
  | Val.vstr s => !s.isEmpty
  | Val.vbool b => b

/-- Embedding of the predicate `lambda x: not x["filtered"]` passed to
`.filter` (`none` models a `KeyError` on a record without the field). -/
def keepUnfiltered (x : Record) : Option Bool :=
  (getField x filteredKey).map (fun v => !pyTruthy v)

/-- Embedding of `filtered_dataset = sample_dataset.filter(lambda x: not x["filtered"])`:
keeps, in order, exactly the records whose `filtered` field is falsy. -/
def filtered_dataset : List Record → Option (List Record)
  | [] => some []
  | x :: rest =>
    match keepUnfiltered x, filtered_dataset rest with
    | some b, some out => some (if b then x :: out else out)
    | _, _ => none

/-- The positions at which `pat` occurs in `t`. -/
def occPositions (pat t : Str) : List Nat :=
  (List.range t.length).filter (fun i => pat.isPrefixOf (t.drop i))

/-- `pat` has no nontrivial border: no proper nonempty suffix of `pat` is
also a prefix of `pat`.  For such patterns, occurrences in any string cannot
overlap, so Python's non-overlapping count agrees with the number of
occurrence positions. -/
def NoBorder (pat : Str) : Prop :=
  ∀ k, k < pat.length → 0 < k → ¬ (pat.drop k <+: pat)

/-- The simpler format predicate of claim C10, stated from the spec side:
the trace starts with the literal `<think>` and each of the two tags has
Python count exactly one. -/
def simpleFormat (t : Str) : Bool :=
  thinkOpen.isPrefixOf t && (pyCount thinkOpen t == 1 && pyCount thinkClose t == 1)

/-! ### Concrete fixture records -/

/-- A concrete record with a well-formed trace and a correct boxed answer. -/
def exValid : Record :=
  [(problemKey, Val.vstr (STR "2+2=?")), (answerKey, Val.vstr (STR "4")),
   (traceKey, Val.vstr (STR "<think>adding</think>\\boxed\x7b4\x7d"))]

/-- A concrete record whose trace has no think tags at all. -/
def exNoTags : Record :=
  [(problemKey, Val.vstr (STR "2+2=?")), (answerKey, Val.vstr (STR "4")),
   (traceKey, Val.vstr (STR "\\boxed\x7b4\x7d"))]

/-! ### Substring and occurrence lemmas -/

theorem hasSubstr_iff (pat s : Str) : hasSubstr pat s = true ↔ ∃ i, pat <+: s.drop i := by
  induction s with
  | nil =>
    constructor
    · intro h
      have hp : pat = [] := by
        cases pat with
        | nil => rfl
        | cons a as => simp [hasSubstr, List.isEmpty] at h
      exact ⟨0, by simp [hp]⟩
    · rintro ⟨i, hi⟩
      have hp : pat = [] := List.prefix_nil.mp (by simpa using hi)
      simp [hasSubstr, hp, List.isEmpty]
  | cons c rest ih =>
    simp only [hasSubstr, Bool.or_eq_true, List.isPrefixOf_iff_prefix, ih]
    constructor
    · rintro (h | ⟨i, hi⟩)
      · exact ⟨0, by simpa using h⟩
      · exact ⟨i + 1, by simpa using hi⟩
    · rintro ⟨i, hi⟩
      cases i with
      | zero => exact Or.inl (by simpa using hi)
      | succ j => exact Or.inr ⟨j, by simpa using hi⟩

theorem pyCountAux_drop (pat : Str) :
    ∀ (s : Str) (k : Nat), pyCountAux pat k s = pyCount pat (s.drop k)
  | [], k => by cases k <;> simp [pyCountAux, pyCount]
  | c :: rest, 0 => by simp [pyCount]
  | c :: rest, Nat.succ k => by
    simp only [pyCountAux, List.drop_succ_cons]
    exact pyCountAux_drop pat rest k

theorem pyCount_nil (pat : Str) : pyCount pat [] = 0 := rfl

theorem pyCount_cons_neg (pat : Str) (c : Char) (rest : Str) (h : ¬ pat <+: c :: rest) :
    pyCount pat (c :: rest) = pyCount pat rest := by
  have hb : pat.isPrefixOf (c :: rest) = false := by
    rw [← Bool.not_eq_true, List.isPrefixOf_iff_prefix]
    exact h
  simp [pyCount, pyCountAux, hb]

theorem pyCount_cons_pos (pat : Str) (c : Char) (rest : Str) (hne : pat ≠ [])
    (h : pat <+: c :: rest) :
    pyCount pat (c :: rest) = 1 + pyCount pat ((c :: rest).drop pat.length) := by
  have hb : pat.isPrefixOf (c :: rest) = true := List.isPrefixOf_iff_prefix.mpr h
  obtain ⟨m, hm⟩ : ∃ m, pat.length = m + 1 := by
    cases pat with
    | nil => exact absurd rfl hne
    | cons a as => exact ⟨as.length, rfl⟩
  simp only [pyCount, pyCountAux, hb, if_true, hm, List.drop_succ_cons,
    Nat.add_sub_cancel]
  rw [pyCountAux_drop]
  rfl

theorem mem_occPositions (pat t : Str) (hne : pat ≠ []) (i : Nat) :
    i ∈ occPositions pat t ↔ pat <+: t.drop i := by
  simp only [occPositions, List.mem_filter, List.mem_range, List.isPrefixOf_iff_prefix]
  constructor
  · rintro ⟨_, h⟩
    exact h
  · intro h
    refine ⟨?_, h⟩
    by_contra hlt
    push_neg at hlt
    rw [List.drop_eq_nil_of_le hlt] at h
    exact hne (List.prefix_nil.mp h)

theorem occPositions_cons (pat : Str) (c : Char) (rest : Str) :
    occPositions pat (c :: rest) =
      (if pat.isPrefixOf (c :: rest) then [0] else [])
        ++ (occPositions pat rest).map Nat.succ := by
  have hf : ((fun i => pat.isPrefixOf ((c :: rest).drop i)) ∘ Nat.succ)
      = fun j => pat.isPrefixOf (rest.drop j) := by
    funext j
    simp [Function.comp]
  simp only [occPositions, List.length_cons, List.range_succ_eq_map, List.filter_cons,
    List.filter_map, hf, List.drop_zero]
  split <;> simp

theorem border_of_overlap (pat t : Str) (k : Nat) (hp : pat <+: t) (hk : k ≤ pat.length)
    (ho : pat <+: t.drop k) : pat.drop k <+: pat := by
  obtain ⟨u, rfl⟩ := hp
  rw [List.drop_append_eq_append_drop, Nat.sub_eq_zero_of_le hk, List.drop_zero] at ho
  rcases List.prefix_or_prefix_of_prefix (List.prefix_append (pat.drop k) u) ho with hc | hc
  · exact hc
  · have hl := hc.length_le
    rw [List.length_drop] at hl
    have : k = 0 ∨ pat.length = 0 := by omega
    rcases this with rfl | hp0
    · simp only [List.drop_zero]
      exact List.prefix_refl pat
    · have hpe : pat = [] := List.length_eq_zero.mp hp0
      simp [hpe]

theorem noBorder_thinkOpen : NoBorder thinkOpen := by
  show ∀ k, k < thinkOpen.length → 0 < k → ¬ (thinkOpen.drop k <+: thinkOpen)
  decide

theorem noBorder_thinkClose : NoBorder thinkClose := by
  show ∀ k, k < thinkClose.length → 0 < k → ¬ (thinkClose.drop k <+: thinkClose)
  decide

theorem occPositions_len_of_prefix (pat t : Str) (hnb : NoBorder pat) (hne : pat ≠ [])
    (h : pat <+: t) :
    (occPositions pat t).length = 1 + (occPositions pat (t.drop pat.length)).length := by
  have hlen : pat.length ≤ t.length := h.length_le
  obtain ⟨m, hm⟩ : ∃ m, pat.length = m + 1 := by
    cases pat with
    | nil => exact absurd rfl hne
    | cons a as => exact ⟨as.length, rfl⟩
  have hrange : List.range t.length
      = List.range pat.length ++ (List.range (t.length - pat.length)).map (pat.length + ·) := by
    rw [← List.range_add]
    congr 1
    omega
  have hone : (List.range pat.length).filter (fun i => pat.isPrefixOf (t.drop i)) = [0] := by
    rw [hm, List.range_succ_eq_map, List.filter_cons]
    have h0 : pat.isPrefixOf (t.drop 0) = true := by
      rw [List.drop_zero, List.isPrefixOf_iff_prefix]
      exact h
    rw [h0, if_pos rfl]
    have hnil : (List.map Nat.succ (List.range m)).filter (fun i => pat.isPrefixOf (t.drop i))
        = [] := by
      rw [List.filter_eq_nil_iff]
      intro a ha
      simp only [List.mem_map, List.mem_range] at ha
      obtain ⟨j, hj, rfl⟩ := ha
      simp only [List.isPrefixOf_iff_prefix, decide_eq_true_eq]
      intro hocc
      exact hnb (j + 1) (by omega) (by omega) (border_of_overlap pat t (j + 1) h (by omega) hocc)
    rw [hnil]
  have htwo : ((List.range (t.length - pat.length)).map (pat.length + ·)).filter
        (fun i => pat.isPrefixOf (t.drop i))
      = (occPositions pat (t.drop pat.length)).map (pat.length + ·) := by
    rw [List.filter_map]
    congr 1
    · rw [occPositions, List.length_drop]
      congr 1
      funext j
      simp only [Function.comp]
      congr 1
      rw [List.drop_drop]
  rw [occPositions, hrange, List.filter_append, hone, htwo]
  simp [Nat.add_comm]

theorem pyCount_eq_occ_aux (pat : Str) (hnb : NoBorder pat) (hne : pat ≠ []) :
    ∀ (n : Nat) (t : Str), t.length ≤ n → pyCount pat t = (occPositions pat t).length := by
  intro n
  induction n with
  | zero =>
    intro t ht
    have : t = [] := List.length_eq_zero.mp (Nat.le_zero.mp ht)
    subst this
    simp [pyCount_nil, occPositions]
  | succ n ih =>
    intro t ht
    cases t with
    | nil => simp [pyCount_nil, occPositions]
    | cons c rest =>
      by_cases hpre : pat <+: c :: rest
      · rw [pyCount_cons_pos pat c rest hne hpre,
          occPositions_len_of_prefix pat (c :: rest) hnb hne hpre]
        congr 1
        apply ih
        have hp1 : 1 ≤ pat.length := by
          cases pat with
          | nil => exact absurd rfl hne
          | cons a as => simp
        simp only [List.length_drop, List.length_cons] at *
        omega
      · rw [pyCount_cons_neg pat c rest hpre, occPositions_cons]
        have hb : pat.isPrefixOf (c :: rest) = false := by
          rw [← Bool.not_eq_true, List.isPrefixOf_iff_prefix]
          exact hpre
        rw [hb]
        simp only [Bool.false_eq_true, if_false, List.nil_append, List.length_map]
        exact ih rest (by simp only [List.length_cons] at ht; omega)

theorem pyCount_eq_occ (pat : Str) (hnb : NoBorder pat) (hne : pat ≠ []) (t : Str) :
    pyCount pat t = (occPositions pat t).length :=
  pyCount_eq_occ_aux pat hnb hne t.length t le_rfl

theorem nodup_occPositions (pat t : Str) : (occPositions pat t).Nodup :=
  (List.nodup_range t.length).filter _

theorem occ_length_eq_one_iff (pat t : Str) (hne : pat ≠ []) :
    (occPositions pat t).length = 1 ↔ (∃! i, pat <+: t.drop i) := by
  rw [List.length_eq_one]
  constructor
  · rintro ⟨a, ha⟩
    refine ⟨a, ?_, ?_⟩
    · show pat <+: t.drop a
      rw [← mem_occPositions pat t hne]
      simp [ha]
    · intro j hj
      have hmem : j ∈ occPositions pat t := (mem_occPositions pat t hne j).mpr hj
      rw [ha] at hmem
      simpa using hmem
  · rintro ⟨a, ha, hu⟩
    refine ⟨a, ?_⟩
    have hmem : a ∈ occPositions pat t := (mem_occPositions pat t hne a).mpr ha
    have hall : ∀ x ∈ occPositions pat t, x = a := by
      intro x hx
      exact hu x ((mem_occPositions pat t hne x).mp hx)
    have hnd := nodup_occPositions pat t
    cases hocc : occPositions pat t with
    | nil =>
      rw [hocc] at hmem
      simp at hmem
    | cons b l =>
      rw [hocc] at hall hnd
      have hb : b = a := hall b (by simp)
      have hl : l = [] := by
        cases l with
        | nil => rfl
        | cons x xs =>
          have hx : x = a := hall x (by simp)
          subst hb
          subst hx
          simp at hnd
      rw [hb, hl]

theorem pyCount_eq_one_iff (pat t : Str) (hnb : NoBorder pat) (hne : pat ≠ []) :
    pyCount pat t = 1 ↔ ∃! i, pat <+: t.drop i := by
  rw [pyCount_eq_occ pat hnb hne t, occ_length_eq_one_iff pat t hne]

theorem open_close_no_overlap :
    ∀ i, i < thinkOpen.length → ¬ (thinkOpen.drop i <+: thinkClose) := by decide

theorem close_occ_ge (t : Str) (i : Nat) (h1 : thinkOpen <+: t) (h2 : thinkClose <+: t.drop i) :
    thinkOpen.length ≤ i := by
  by_contra hlt
  push_neg at hlt
  obtain ⟨u, rfl⟩ := h1
  rw [List.drop_append_eq_append_drop, Nat.sub_eq_zero_of_le (le_of_lt hlt),
    List.drop_zero] at h2
  rcases List.prefix_or_prefix_of_prefix (List.prefix_append (thinkOpen.drop i) u) h2 with hc | hc
  · exact open_close_no_overlap i hlt hc
  · have hlen := hc.length_le
    rw [List.length_drop] at hlen
    have h7 : thinkOpen.length = 7 := by decide
    have h8 : thinkClose.length = 8 := by decide
    omega

theorem regexMatches_iff (t : Str) :
    regexMatches t = true ↔
      (thinkOpen <+: t ∧ ∃ i, thinkOpen.length ≤ i ∧ thinkClose <+: t.drop i) := by
  simp only [regexMatches, Bool.and_eq_true, List.isPrefixOf_iff_prefix, hasSubstr_iff]
  constructor
  · rintro ⟨hp, j, hj⟩
    refine ⟨hp, thinkOpen.length + j, by omega, ?_⟩
    rwa [List.drop_drop] at hj
  · rintro ⟨hp, i, hi, hocc⟩
    refine ⟨hp, i - thinkOpen.length, ?_⟩
    rw [List.drop_drop]
    have heq : thinkOpen.length + (i - thinkOpen.length) = i := by omega
    rw [heq]
    exact hocc

/-! ### Record lookup lemmas -/

theorem getField_setField_same (r : Record) (k : Str) (v : Val) :
    getField (setField r k v) k = some v := by
  induction r with
  | nil => simp [setField, getField]
  | cons p rest ih =>
    obtain ⟨k2, w⟩ := p
    by_cases hk : k2 = k
    · simp [setField, getField, hk]
    · simp [setField, getField, hk, ih]

theorem getField_setField_ne (r : Record) (k k2 : Str) (v : Val) (hne : k ≠ k2) :
    getField (setField r k v) k2 = getField r k2 := by
  induction r with
  | nil => simp [setField, getField, hne]
  | cons p rest ih =>
    obtain ⟨k3, w⟩ := p
    by_cases hk : k3 = k
    · subst hk
      simp [setField, getField, hne]
    · simp [setField, getField, hk, ih]

theorem getField_withVerdict_filtered (ex : Record) (b : Bool) (reason : Str) :
    getField (withVerdict ex b reason) filteredKey = some (Val.vbool b) := by
  unfold withVerdict
  rw [getField_setField_ne _ _ _ _ (by decide), getField_setField_same]

theorem getField_withVerdict_reason (ex : Record) (b : Bool) (reason : Str) :
    getField (withVerdict ex b reason) reasonKey = some (Val.vstr reason) := by
  unfold withVerdict
  rw [getField_setField_same]

theorem getField_withVerdict_other (ex : Record) (b : Bool) (reason : Str) (k : Str)
    (h1 : k ≠ filteredKey) (h2 : k ≠ reasonKey) :
    getField (withVerdict ex b reason) k = getField ex k := by
  unfold withVerdict
  rw [getField_setField_ne _ _ _ _ (Ne.symm h2), getField_setField_ne _ _ _ _ (Ne.symm h1)]

/-! ### Validator equation lemmas -/

theorem check_format_eq (t : Str) :
    check_format t
      = (regexMatches t && (pyCount thinkOpen t == 1 && pyCount thinkClose t == 1)) := by
  simp only [check_format, List.all_cons, List.all_nil, Bool.and_true]
  cases regexMatches t <;> simp

theorem filterWith_eq (answerCheck : Str → Str → Bool) (ex : Record) (rt gt : Str)
    (htr : asStr (getField ex traceKey) = some rt)
    (hans : asStr (getField ex answerKey) = some gt) :
    filterWith answerCheck ex
      = some (if check_format rt = false then withVerdict ex true INVALID_FORMAT
              else if answerCheck rt gt = false then withVerdict ex true INCORRECT_ANSWER
              else withVerdict ex false VALID) := by
  unfold filterWith
  rw [htr, hans]
  rcases Bool.eq_false_or_eq_true (check_format rt) with hf | hf <;>
    rcases Bool.eq_false_or_eq_true (answerCheck rt gt) with ha | ha <;>
    simp [hf, ha]

theorem filter_reasoning_trace_eq (ex : Record) (rt gt : Str)
    (htr : asStr (getField ex traceKey) = some rt)
    (hans : asStr (getField ex answerKey) = some gt) :
    filter_reasoning_trace ex
      = some (if check_format rt = false then withVerdict ex true INVALID_FORMAT
              else if calculate_answer rt gt = false then withVerdict ex true INCORRECT_ANSWER
              else withVerdict ex false VALID) :=
  filterWith_eq calculate_answer ex rt gt htr hans

theorem filter_verdict_cases (ex out : Record) (h : filter_reasoning_trace ex = some out) :
    out = withVerdict ex true INVALID_FORMAT ∨ out = withVerdict ex true INCORRECT_ANSWER ∨
    out = withVerdict ex false VALID := by
  cases htr : asStr (getField ex traceKey) with
  | none =>
    unfold filter_reasoning_trace filterWith at h
    rw [htr] at h
    simp at h
  | some rt =>
    cases hans : asStr (getField ex answerKey) with
    | none =>
      unfold filter_reasoning_trace filterWith at h
      rw [htr, hans] at h
      simp at h
    | some gt =>
      rw [filter_reasoning_trace_eq ex rt gt htr hans, Option.some_inj] at h
      subst h
      rcases Bool.eq_false_or_eq_true (check_format rt) with hf | hf <;>
        rcases Bool.eq_false_or_eq_true (calculate_answer rt gt) with ha | ha <;>
        simp [hf, ha]

/-! ### Stream accumulator lemmas -/

theorem processFrom_eq (events : List StreamEvent) :
    ∀ acc, processFrom acc events = acc ++ (deliveredFragments events).flatten := by
  induction events with
  | nil =>
    intro acc
    simp [processFrom, deliveredFragments]
  | cons e rest ih =>
    intro acc
    cases e with
    | err => simp [processFrom, deliveredFragments]
    | chunk c =>
      cases c with
      | none => simp [processFrom, deliveredFragments, ih]
      | some s => simp [processFrom, deliveredFragments, ih, List.append_assoc]

theorem deliveredFragments_append_err (pre post : List StreamEvent)
    (h : StreamEvent.err ∉ pre) :
    deliveredFragments (pre ++ StreamEvent.err :: post) = deliveredFragments pre := by
  induction pre with
  | nil => simp [deliveredFragments]
  | cons e rest ih =>
    have h2 : StreamEvent.err ∉ rest := fun hm => h (List.mem_cons_of_mem _ hm)
    cases e with
    | err => exact absurd (List.mem_cons_self _ _) h
    | chunk c => cases c <;> simp [deliveredFragments, ih h2]

/-! ### Claim theorems -/

/-- C1: `check_format t` is true iff `t` matches the anchored DOTALL pattern
`^<think>.*?</think>` from position zero (`t` starts with `<think>` and
`</think>` occurs at some position at or past the end of the opening tag)
and each of the two literal tokens `<think>` and `</think>` occurs exactly
once in `t` (a unique occurrence position); moreover
`"<think>reasoning</think>final answer"` passes, a trace with leading
whitespace or stray text before `<think>` fails, and a trace containing two
`<think>` tokens fails. -/
theorem C1_check_format_contract :
    (∀ t : Str, check_format t = true ↔
      ((thinkOpen <+: t ∧ ∃ i, thinkOpen.length ≤ i ∧ thinkClose <+: t.drop i) ∧
        (∃! i, thinkOpen <+: t.drop i) ∧ (∃! i, thinkClose <+: t.drop i))) ∧
    check_format (STR "<think>reasoning</think>final answer") = true ∧
    check_format (STR " <think>reasoning</think>final answer") = false ∧
    check_format (STR "stray text<think>reasoning</think>") = false ∧
    check_format (STR "<think>one<think>two</think>") = false := by
  refine ⟨?_, by decide, by decide, by decide, by decide⟩
  intro t
  rw [check_format_eq, Bool.and_eq_true, Bool.and_eq_true]
  simp only [beq_iff_eq]
  rw [regexMatches_iff, pyCount_eq_one_iff thinkOpen t noBorder_thinkOpen (by decide),
    pyCount_eq_one_iff thinkClose t noBorder_thinkClose (by decide)]

/-- C10: `check_format` coincides with the simpler predicate `simpleFormat`:
under the exactly-once counting conditions the anchored lazy regex match
with DOTALL and MULTILINE adds no constraint beyond the `<think>` prefix
(MULTILINE is vacuous for a match anchored at position zero, and the single
`</think>` occurrence necessarily lies after the opening prefix). -/
theorem C10_check_format_eq_simpleFormat : ∀ t : Str, check_format t = simpleFormat t := by
  intro t
  rw [Bool.eq_iff_iff, check_format_eq]
  simp only [simpleFormat, Bool.and_eq_true, beq_iff_eq, List.isPrefixOf_iff_prefix]
  rw [regexMatches_iff]
  constructor
  · rintro ⟨⟨hp, _⟩, hc⟩
    exact ⟨hp, hc⟩
  · rintro ⟨hp, hc1, hc2⟩
    refine ⟨⟨hp, ?_⟩, hc1, hc2⟩
    obtain ⟨i, hi, -⟩ :=
      (pyCount_eq_one_iff thinkClose t noBorder_thinkClose (by decide)).mp hc2
    exact ⟨i, close_occ_ge t i hp hi, hi⟩

/-- C2: every record produced by the validator satisfies the biconditional
`filtered = false` iff `filtered_reason = "VALID"`, and the reason code is
always one of exactly VALID, INVALID_FORMAT, INCORRECT_ANSWER. -/
theorem C2_verdict_invariant (ex out : Record)
    (h : filter_reasoning_trace ex = some out) :
    ((getField out filteredKey = some (Val.vbool false)) ↔
      (getField out reasonKey = some (Val.vstr VALID))) ∧
    (getField out reasonKey = some (Val.vstr VALID) ∨
      getField out reasonKey = some (Val.vstr INVALID_FORMAT) ∨
      getField out reasonKey = some (Val.vstr INCORRECT_ANSWER)) := by
  rcases filter_verdict_cases ex out h with rfl | rfl | rfl <;>
    rw [getField_withVerdict_filtered, getField_withVerdict_reason] <;>
    exact ⟨by decide, by decide⟩

/-- Witness for C2: the validator's verdict on a concrete valid record. -/
theorem C2_verdict_invariant_witness :
    ((getField (withVerdict exValid false VALID) filteredKey = some (Val.vbool false)) ↔
      (getField (withVerdict exValid false VALID) reasonKey = some (Val.vstr VALID))) ∧
    (getField (withVerdict exValid false VALID) reasonKey = some (Val.vstr VALID) ∨
      getField (withVerdict exValid false VALID) reasonKey = some (Val.vstr INVALID_FORMAT) ∨
      getField (withVerdict exValid false VALID) reasonKey = some (Val.vstr INCORRECT_ANSWER)) :=
  C2_verdict_invariant exValid (withVerdict exValid false VALID) (by decide)

/-- C3: the validator runs two sequential short-circuiting checks: when the
format check fails, the verdict is `filtered = true` with INVALID_FORMAT for
every answer-correctness function (so that check is never invoked); when the
format check passes and the answer check fails the verdict is
INCORRECT_ANSWER; when both pass it is `filtered = false` with VALID.
`calculate_answer` equals itself conjoined with extraction success, i.e.
an extraction failure forces the answer check to return `false`.  The
validator returns a verdict record — reason codes, never an exception — for
every record carrying the two string fields. -/
theorem C3_short_circuit (answerCheck : Str → Str → Bool) (ex : Record) (rt gt : Str)
    (htr : asStr (getField ex traceKey) = some rt)
    (hans : asStr (getField ex answerKey) = some gt) :
    filterWith answerCheck ex
      = some (if check_format rt = false then withVerdict ex true INVALID_FORMAT
              else if answerCheck rt gt = false then withVerdict ex true INCORRECT_ANSWER
              else withVerdict ex false VALID) ∧
    calculate_answer rt gt = ((extractAnswer rt).isSome && calculate_answer rt gt) ∧
    (filter_reasoning_trace ex).isSome = true := by
  refine ⟨filterWith_eq answerCheck ex rt gt htr hans, ?_, ?_⟩
  · unfold calculate_answer
    cases extractAnswer rt <;> simp
  · rw [filter_reasoning_trace_eq ex rt gt htr hans]
    rfl

/-- Witness for C3: a concrete record whose trace has no think tags, with
the answer check instantiated to `calculate_answer`. -/
theorem C3_short_circuit_witness :
    filterWith calculate_answer exNoTags
      = some (if check_format (STR "\\boxed\x7b4\x7d") = false
              then withVerdict exNoTags true INVALID_FORMAT
              else if calculate_answer (STR "\\boxed\x7b4\x7d") (STR "4") = false
              then withVerdict exNoTags true INCORRECT_ANSWER
              else withVerdict exNoTags false VALID) ∧
    calculate_answer (STR "\\boxed\x7b4\x7d") (STR "4")
      = ((extractAnswer (STR "\\boxed\x7b4\x7d")).isSome
          && calculate_answer (STR "\\boxed\x7b4\x7d") (STR "4")) ∧
    (filter_reasoning_trace exNoTags).isSome = true :=
  C3_short_circuit calculate_answer exNoTags (STR "\\boxed\x7b4\x7d") (STR "4")
    (by decide) (by decide)

/-- C4: when the stream raises mid-iteration, the accumulator returns
exactly the concatenation, in arrival order, of the fragments received
before the failure — no exception propagates, no fragment is dropped,
reordered, or invented; in particular delivering `"<think>foo"` and then
failing yields exactly `"<think>foo"`, which fails the format check. -/
theorem C4_truncated_stream (pre post : List StreamEvent)
    (hpre : StreamEvent.err ∉ pre) :
    process_streaming_response (pre ++ StreamEvent.err :: post)
      = (deliveredFragments pre).flatten ∧
    process_streaming_response [StreamEvent.chunk (some (STR "<think>foo")), StreamEvent.err]
      = STR "<think>foo" ∧
    check_format (STR "<think>foo") = false := by
  refine ⟨?_, by decide, by decide⟩
  unfold process_streaming_response
  rw [processFrom_eq, deliveredFragments_append_err pre post hpre]
  simp

/-- Witness for C4: two delivered fragments (one a `None` delta), then a
transport failure, with a further chunk lost after the error. -/
theorem C4_truncated_stream_witness :
    process_streaming_response ([StreamEvent.chunk (some (STR "ab")), StreamEvent.chunk none]
        ++ StreamEvent.err :: [StreamEvent.chunk (some (STR "zz"))])
      = (deliveredFragments [StreamEvent.chunk (some (STR "ab")), StreamEvent.chunk none]).flatten ∧
    process_streaming_response [StreamEvent.chunk (some (STR "<think>foo")), StreamEvent.err]
      = STR "<think>foo" ∧
    check_format (STR "<think>foo") = false :=
  C4_truncated_stream [StreamEvent.chunk (some (STR "ab")), StreamEvent.chunk none]
    [StreamEvent.chunk (some (STR "zz"))] (by decide)

/-- C9: for an error-free stream the accumulated trace is the concatenation
of exactly the non-`None` content deltas, in arrival order: chunks whose
delta is absent are skipped and contribute nothing. -/
theorem C9_none_deltas_skipped (events : List StreamEvent)
    (h : StreamEvent.err ∉ events) :
    process_streaming_response events = (deliveredFragments events).flatten ∧
    deliveredFragments events
      = events.filterMap (fun e => match e with
          | StreamEvent.chunk c => c
          | StreamEvent.err => none) := by
  refine ⟨?_, ?_⟩
  · unfold process_streaming_response
    rw [processFrom_eq]
    simp
  · induction events with
    | nil => rfl
    | cons e rest ih =>
      have h2 : StreamEvent.err ∉ rest := fun hm => h (List.mem_cons_of_mem _ hm)
      cases e with
      | err => exact absurd (List.mem_cons_self _ _) h
      | chunk c => cases c <;> simp [deliveredFragments, List.filterMap_cons, ih h2]

/-- Witness for C9: a concrete error-free stream with a `None` delta. -/
theorem C9_none_deltas_skipped_witness :
    process_streaming_response
        [StreamEvent.chunk (some (STR "a")), StreamEvent.chunk none,
         StreamEvent.chunk (some (STR "b"))]
      = (deliveredFragments
          [StreamEvent.chunk (some (STR "a")), StreamEvent.chunk none,
           StreamEvent.chunk (some (STR "b"))]).flatten ∧
    deliveredFragments
        [StreamEvent.chunk (some (STR "a")), StreamEvent.chunk none,
         StreamEvent.chunk (some (STR "b"))]
      = [StreamEvent.chunk (some (STR "a")), StreamEvent.chunk none,
         StreamEvent.chunk (some (STR "b"))].filterMap (fun e => match e with
          | StreamEvent.chunk c => c
          | StreamEvent.err => none) :=
  C9_none_deltas_skipped
    [StreamEvent.chunk (some (STR "a")), StreamEvent.chunk none,
     StreamEvent.chunk (some (STR "b"))] (by decide)

/-- C5: the answer-correctness check extracts the boxed content as the
primary target (also from a trace containing other numeric notation) and
judges numeric equivalence against the ground truth: `9.80` is equivalent
to `9.8`, while `185` is not equivalent to `180`. -/
theorem C5_answer_equivalence :
    extractAnswer (STR "<think>try x=12</think>the result is \\boxed\x7b9.80\x7d indeed")
      = some (STR "9.80") ∧
    calculate_answer (STR "<think>r</think>\\boxed\x7b9.80\x7d") (STR "9.8") = true ∧
    calculate_answer (STR "<think>r</think>\\boxed\x7b185\x7d") (STR "180") = false ∧
    verifyEquiv (STR "9.80") (STR "9.8") = true ∧
    verifyEquiv (STR "185") (STR "180") = false :=
  ⟨by decide, by decide, by decide, by decide, by decide⟩

/-- C6: for a record exposing a problem text, `distill_data_from_r1` issues
exactly one completion request; the request's message list is a single
user-role message (no system-role message) holding the fixed prompt
template with the record's problem substituted, and the decoding
configuration is exactly temperature 0.6, top-p 0.7, max_tokens 32768,
with streamed delivery enabled. -/
theorem C6_request_shape (serve : CompletionRequest → List StreamEvent) (ex : Record)
    (problem : Str) (h : asStr (getField ex problemKey) = some problem) :
    (distill_data_from_r1 serve ex).map Prod.fst = some [distillRequest problem] ∧
    (distillRequest problem).messages
      = [{ role := STR "user", content := PROMPT_TEMPLATE problem }] ∧
    ((distillRequest problem).messages.all (fun m => m.role == STR "user")) = true ∧
    (distillRequest problem).messages.length = 1 ∧
    (distillRequest problem).temperature = 0.6 ∧
    (distillRequest problem).top_p = 0.7 ∧
    (distillRequest problem).max_tokens = 32768 ∧
    (distillRequest problem).stream = true := by
  refine ⟨?_, rfl, rfl, rfl, rfl, rfl, rfl, rfl⟩
  unfold distill_data_from_r1
  rw [h]
  rfl

/-- Witness for C6: the request issued for the concrete valid record. -/
theorem C6_request_shape_witness :
    (distill_data_from_r1 (fun _ => []) exValid).map Prod.fst
      = some [distillRequest (STR "2+2=?")] ∧
    (distillRequest (STR "2+2=?")).messages
      = [{ role := STR "user", content := PROMPT_TEMPLATE (STR "2+2=?") }] ∧
    ((distillRequest (STR "2+2=?")).messages.all (fun m => m.role == STR "user")) = true ∧
    (distillRequest (STR "2+2=?")).messages.length = 1 ∧
    (distillRequest (STR "2+2=?")).temperature = 0.6 ∧
    (distillRequest (STR "2+2=?")).top_p = 0.7 ∧
    (distillRequest (STR "2+2=?")).max_tokens = 32768 ∧
    (distillRequest (STR "2+2=?")).stream = true :=
  C6_request_shape (fun _ => []) exValid (STR "2+2=?") (by decide)

/-- C7: no pipeline operation mutates a record's original fields:
`distill_data_from_r1` returns every field other than `reasoning_trace`
unchanged (in particular `problem` and `answer`), and
`filter_reasoning_trace` returns every field other than `filtered` and
`filtered_reason` unchanged — including `reasoning_trace`. -/
theorem C7_fields_preserved (serve : CompletionRequest → List StreamEvent) (ex : Record)
    (problem rt gt k1 k2 : Str)
    (hp : asStr (getField ex problemKey) = some problem)
    (htr : asStr (getField ex traceKey) = some rt)
    (hans : asStr (getField ex answerKey) = some gt)
    (hk1 : k1 ≠ traceKey)
    (hk2 : k2 ≠ filteredKey) (hk3 : k2 ≠ reasonKey) :
    (distill_data_from_r1 serve ex).map (fun p => getField p.2 k1) = some (getField ex k1) ∧
    (filter_reasoning_trace ex).map (fun out => getField out k2) = some (getField ex k2) ∧
    (filter_reasoning_trace ex).map (fun out => getField out traceKey)
      = some (getField ex traceKey) := by
  refine ⟨?_, ?_, ?_⟩
  · unfold distill_data_from_r1
    rw [hp]
    simp only [Option.map_some', Option.some_inj]
    rw [getField_setField_ne _ _ _ _ (Ne.symm hk1)]
  · rw [filter_reasoning_trace_eq ex rt gt htr hans]
    simp only [Option.map_some', Option.some_inj]
    split
    · rw [getField_withVerdict_other _ _ _ _ hk2 hk3]
    split
    · rw [getField_withVerdict_other _ _ _ _ hk2 hk3]
    · rw [getField_withVerdict_other _ _ _ _ hk2 hk3]
  · rw [filter_reasoning_trace_eq ex rt gt htr hans]
    simp only [Option.map_some', Option.some_inj]
    split
    · rw [getField_withVerdict_other _ _ _ _ (by decide) (by decide)]
    split
    · rw [getField_withVerdict_other _ _ _ _ (by decide) (by decide)]
    · rw [getField_withVerdict_other _ _ _ _ (by decide) (by decide)]

/-- Witness for C7: the `problem` field of the concrete valid record is
preserved through the requester, and the `answer` and `reasoning_trace`
fields through the validator. -/
theorem C7_fields_preserved_witness :
    (distill_data_from_r1 (fun _ => []) exValid).map (fun p => getField p.2 problemKey)
      = some (getField exValid problemKey) ∧
    (filter_reasoning_trace exValid).map (fun out => getField out answerKey)
      = some (getField exValid answerKey) ∧
    (filter_reasoning_trace exValid).map (fun out => getField out traceKey)
      = some (getField exValid traceKey) :=
  C7_fields_preserved (fun _ => []) exValid (STR "2+2=?")
    (STR "<think>adding</think>\\boxed\x7b4\x7d") (STR "4") problemKey answerKey
    (by decide) (by decide) (by decide) (by decide) (by decide) (by decide)

/-- C8: validated records are not silently dropped: mapping the validator
over a dataset yields one output record per input record, every output
carries one of the three reason codes, and the final filtering step keeps
exactly the records whose `filtered` field is `false`. -/
theorem C8_retention_and_final_filter (ds validated : List Record)
    (h : validateDataset ds = some validated) :
    validated.length = ds.length ∧
    (validated.all (fun out =>
      (getField out reasonKey == some (Val.vstr VALID)) ||
      (getField out reasonKey == some (Val.vstr INVALID_FORMAT)) ||
      (getField out reasonKey == some (Val.vstr INCORRECT_ANSWER)))) = true ∧
    filtered_dataset validated
      = some (validated.filter
          (fun out => getField out filteredKey == some (Val.vbool false))) := by
  induction ds generalizing validated with
  | nil =>
    simp only [validateDataset, Option.some_inj] at h
    subst h
    exact ⟨rfl, rfl, rfl⟩
  | cons ex rest ih =>
    cases hf : filter_reasoning_trace ex with
    | none =>
      unfold validateDataset at h
      rw [hf] at h
      simp at h
    | some out =>
      cases hr : validateDataset rest with
      | none =>
        unfold validateDataset at h
        rw [hf, hr] at h
        simp at h
      | some outs =>
        unfold validateDataset at h
        rw [hf, hr] at h
        simp only [Option.some_inj] at h
        subst h
        obtain ⟨ihl, iha, ihf⟩ := ih outs hr
        refine ⟨by simp [ihl], ?_, ?_⟩
        · rw [List.all_cons]
          refine (Bool.and_eq_true _ _).mpr ⟨?_, iha⟩
          rcases filter_verdict_cases ex out hf with rfl | rfl | rfl <;>
            simp [getField_withVerdict_reason, VALID, INVALID_FORMAT, INCORRECT_ANSWER, STR]
        · simp only [filtered_dataset]
          rw [ihf]
          rcases filter_verdict_cases ex out hf with rfl | rfl | rfl <;>
            simp [keepUnfiltered, getField_withVerdict_filtered, pyTruthy, List.filter_cons]

/-- Witness for C8: a concrete two-record dataset — one kept, one rejected
for its format — validated and then filtered. -/
theorem C8_retention_and_final_filter_witness :
    [withVerdict exValid false VALID, withVerdict exNoTags true INVALID_FORMAT].length
      = [exValid, exNoTags].length ∧
    ([withVerdict exValid false VALID, withVerdict exNoTags true INVALID_FORMAT].all (fun out =>
      (getField out reasonKey == some (Val.vstr VALID)) ||
      (getField out reasonKey == some (Val.vstr INVALID_FORMAT)) ||
      (getField out reasonKey == some (Val.vstr INCORRECT_ANSWER)))) = true ∧
    filtered_dataset [withVerdict exValid false VALID, withVerdict exNoTags true INVALID_FORMAT]
      = some ([withVerdict exValid false VALID,
               withVerdict exNoTags true INVALID_FORMAT].filter
          (fun out => getField out filteredKey == some (Val.vbool false))) :=
  C8_retention_and_final_filter [exValid, exNoTags]
    [withVerdict exValid false VALID, withVerdict exNoTags true INVALID_FORMAT] (by decide)

end DistillR1
